import Mathlib

/-!
Verification of the multi-backend YouTube resolution server (`server.py`).

A shallow embedding of the resolution logic: the video-ID extractor, the
family-A (Invidious) adapter's format pipeline, the family-B (Piped) stream
parser and instance-pool retry loop, the stream selector used by the S3
upload path, the yt-dlp format filter, and the temp-file lifecycle of the
S3 upload handler.  Network and filesystem effects are modelled by explicit
parameters (response values, stage outcomes); the pure data transformations
are translated directly from the Python source.
-/

namespace YtServer

/-- A produced stream candidate: the dict built by the adapters
(`server.py` lines 154-162, 209-215).  `height` is the parsed height,
`0` standing for Python's falsy missing height. -/
structure Fmt where
  quality : String
  url : String
  itag : String
  ext : String
  height : Nat
deriving DecidableEq, Repr

/-- Digit list to number, e.g. `['7','2','0'] ↦ 720` (Python `int`). -/
def digitsToNat (l : List Char) : Nat :=
  l.foldl (fun n c => n * 10 + (c.toNat - '0'.toNat)) 0

/-- `re.match(r"(\d+)p", s)`: a nonempty run of leading digits immediately
followed by the letter `p` (`server.py` lines 146-148 and 204-206). -/
def parseLeadingP (l : List Char) : Option Nat :=
  let ds := l.takeWhile Char.isDigit
  if ds.isEmpty then none
  else
    match l.drop ds.length with
    | 'p' :: _ => some (digitsToNat ds)
    | _ => none

/-- `re.search(r"(\d+)p?$", s)`: a trailing run of digits, optionally
followed by a final `p` (`server.py` line 492).  Returns the parsed
target height, or `none` when the hint has no such suffix. -/
def parseTrailingTarget (q : List Char) : Option Nat :=
  match q.reverse with
  | [] => none
  | c :: rest =>
    if c == 'p' then
      let ds := rest.takeWhile Char.isDigit
      if ds.isEmpty then none else some (digitsToNat ds.reverse)
    else if c.isDigit then
      some (digitsToNat ((c :: rest).takeWhile Char.isDigit).reverse)
    else none

/-- Deduplication by height with an accumulating `seen_heights` set
(`server.py` lines 164-171 and 228-235): keep the first entry at each
height. -/
def dedupByHeightAux : List Nat → List Fmt → List Fmt
  | _, [] => []
  | seen, f :: fs =>
    if f.height ∈ seen then dedupByHeightAux seen fs
    else f :: dedupByHeightAux (f.height :: seen) fs

/-- `seen_heights = set(); ...` starting from the empty seen-set. -/
def dedupByHeight (l : List Fmt) : List Fmt := dedupByHeightAux [] l

/-- Stable insertion for descending order by height: an element is placed
before the first strictly smaller entry, after equal ones (the placement a
stable sort gives). -/
def insertByHeightDesc (f : Fmt) : List Fmt → List Fmt
  | [] => [f]
  | g :: gs =>
    if g.height ≤ f.height then f :: g :: gs
    else g :: insertByHeightDesc f gs

/-- `formats.sort(key=lambda x: x["height"], reverse=True)` — a stable
descending sort by height (`server.py` lines 174 and 237). -/
def sortByHeightDesc : List Fmt → List Fmt
  | [] => []
  | f :: fs => insertByHeightDesc f (sortByHeightDesc fs)

/-- The shared tail of both adapters' pipelines: deduplicate by height,
then sort descending by height (`server.py` lines 164-174 and 228-237). -/
def dedupAndSort (l : List Fmt) : List Fmt := sortByHeightDesc (dedupByHeight l)

/-! ### Video ID extraction (`extract_video_id`, `server.py` lines 110-122) -/

/-- The character class `[a-zA-Z0-9_-]` of the ID patterns. -/
def isIdChar (c : Char) : Bool :=
  c.isAlpha || c.isDigit || c == '-' || c == '_'

/-- If `lit` is a literal prefix of `l`, return the remainder of `l`. -/
def dropLit : List Char → List Char → Option (List Char)
  | [], rest => some rest
  | _ :: _, [] => none
  | p :: ps, c :: cs => if c == p then dropLit ps cs else none

/-- Greedily take exactly `n` ID characters (the `{11}` quantifier). -/
def takeIdChars : Nat → List Char → Option (List Char)
  | 0, _ => some []
  | _ + 1, [] => none
  | n + 1, c :: cs =>
    if isIdChar c then (takeIdChars n cs).map (c :: ·) else none

/-- Alternative `youtube.com/watch?v=` of the first pattern. -/
def watchLit : List Char := "youtube.com/watch?v=".toList

/-- Alternative `youtu.be/` of the first pattern. -/
def shortLit : List Char := "youtu.be/".toList

/-- Alternative `youtube.com/embed/` of the first pattern. -/
def embedLit : List Char := "youtube.com/embed/".toList

/-- One alternative at the current position: the literal, then 11 ID chars. -/
def tryOneAlt (alt l : List Char) : Option (List Char) :=
  match dropLit alt l with
  | some rest => takeIdChars 11 rest
  | none => none

/-- All three alternatives of pattern
`(?:youtube\.com/watch\?v=|youtu\.be/|youtube\.com/embed/)([a-zA-Z0-9_-]{11})`
at the current position, tried in the regex's order. -/
def tryAltsAt (l : List Char) : Option (List Char) :=
  match tryOneAlt watchLit l with
  | some r => some r
  | none =>
    match tryOneAlt shortLit l with
    | some r => some r
    | none => tryOneAlt embedLit l

/-- `re.search` of the first pattern: leftmost position at which some
alternative (in order) matches. -/
def searchPat1 : List Char → Option (List Char)
  | [] => none
  | c :: cs =>
    match tryAltsAt (c :: cs) with
    | some r => some r
    | none => searchPat1 cs

/-- The second pattern `^([a-zA-Z0-9_-]{11})$`: a bare 11-character ID. -/
def isBareId (l : List Char) : Bool :=
  l.length == 11 && l.all isIdChar

/-- `extract_video_id` on the character list: the first pattern that
matches wins; `none` models Python's `return None`. -/
def extractVideoId (l : List Char) : Option (List Char) :=
  match searchPat1 l with
  | some r => some r
  | none => if isBareId l then some l else none

/-- `extract_video_id(url)` (`server.py` lines 110-122). -/
def extract_video_id (url : String) : Option String :=
  (extractVideoId url.toList).map List.asString

/-! ### Family-A (Invidious) adapter (`get_video_info_invidious`,
`server.py` lines 125-185) -/

/-- A raw `adaptiveFormats` entry of the Invidious response.  Absent
string fields are modelled as `""` (Python `fmt.get(k, "")` / falsy), and
an absent or null height as `0` (`fmt.get("height") or 0`). -/
structure InvFmt where
  type : String
  url : String
  itag : String
  resolution : String
  qualityLabel : String
  height : Nat
deriving DecidableEq, Repr

/-- Effective height of an Invidious format: the declared height, or when
that is falsy, the value parsed from a `"<digits>p..."` resolution label
(`server.py` lines 144-148). -/
def invEffHeight (f : InvFmt) : Nat :=
  if f.height = 0 ∧ f.resolution ≠ "" then
    match parseLeadingP f.resolution.toList with
    | some v => v
    | none => 0
  else f.height

/-- The body of the `adaptiveFormats` loop (`server.py` lines 138-162):
keep video formats with a URL and positive effective height, rewriting
relative URLs against the Invidious host `base`. -/
def mkInvidiousEntry (base : String) (f : InvFmt) : Option Fmt :=
  if f.type.startsWith "video" ∧ f.url ≠ "" then
    let h := invEffHeight f
    if 0 < h then
      some { quality := if f.qualityLabel ≠ "" then f.qualityLabel else toString h ++ "p"
             url := if f.url.startsWith "/" then base ++ f.url else f.url
             itag := f.itag
             ext := "mp4"
             height := h }
    else none
  else none

/-- The candidate list built by `get_video_info_invidious` before
truncation: filter, deduplicate by height, sort descending
(`server.py` lines 137-174). -/
def invidiousCandidates (base : String) (l : List InvFmt) : List Fmt :=
  dedupAndSort (l.filterMap (mkInvidiousEntry base))

/-- `formats[:10]` as returned by `get_video_info_invidious`
(`server.py` line 180). -/
def invidiousFormats (base : String) (l : List InvFmt) : List Fmt :=
  (invidiousCandidates base l).take 10

/-! ### Family-B (Piped) stream parser (`_parse_piped_streams`,
`server.py` lines 188-238) -/

/-- A raw `videoStreams` entry of a Piped response.  `url = ""` models a
missing/falsy URL, `height = 0` a missing height (`fmt.get("height", 0)`),
and `videoOnly` carries `fmt.get("videoOnly", True)`. -/
structure PipedStream where
  url : String
  height : Nat
  quality : String
  itag : String
  videoOnly : Bool
deriving DecidableEq, Repr

/-- Effective height of a Piped stream: the declared height, or when that
is falsy, the value parsed from a `"<digits>p..."` quality label
(`server.py` lines 200-206). -/
def pipedEffHeight (s : PipedStream) : Nat :=
  if s.height = 0 ∧ s.quality ≠ "" then
    match parseLeadingP s.quality.toList with
    | some v => v
    | none => 0
  else s.height

/-- The body of the `videoStreams` loop (`server.py` lines 197-219):
skip URL-less streams and streams with non-positive effective height;
otherwise build the entry, remembering the `videoOnly` flag. -/
def pipedStreamEntry (s : PipedStream) : Option (Fmt × Bool) :=
  if s.url ≠ "" then
    let h := pipedEffHeight s
    if 0 < h then
      some ({ quality := if s.quality ≠ "" then s.quality else toString h ++ "p"
              url := s.url
              itag := s.itag
              ext := "mp4"
              height := h }, s.videoOnly)
    else none
  else none

/-- The `combined` list: entries whose `videoOnly` flag is false, in
stream order (`server.py` lines 216-219). -/
def pipedCombined (streams : List PipedStream) : List Fmt :=
  (streams.filterMap pipedStreamEntry).filterMap
    (fun e => if e.2 then none else some e.1)

/-- The `video_only` list: entries whose `videoOnly` flag is true, in
stream order (`server.py` lines 216-217). -/
def pipedVideoOnly (streams : List PipedStream) : List Fmt :=
  (streams.filterMap pipedStreamEntry).filterMap
    (fun e => if e.2 then some e.1 else none)

/-- The merge step (`server.py` lines 221-226): start with the combined
streams, then append each video-only stream whose height is not already
covered by a combined stream. -/
def pipedMerged (streams : List PipedStream) : List Fmt :=
  pipedCombined streams ++
    (pipedVideoOnly streams).filter
      (fun f => decide (f.height ∉ (pipedCombined streams).map Fmt.height))

/-- `_parse_piped_streams` (`server.py` lines 188-238): merge, then
deduplicate by height, then sort descending by height. -/
def parse_piped_streams (streams : List PipedStream) : List Fmt :=
  dedupAndSort (pipedMerged streams)

/-! ### Family-B (Piped) per-instance attempt (`_try_piped_instance`,
`server.py` lines 241-283) -/

/-- The JSON payload of a Piped response.  `error`/`message`/`title` model
`data.get(...)`: `none` is an absent key, `some ""` an empty value (both
falsy under the code's truthiness checks). -/
structure PipedData where
  error : Option String
  message : Option String
  title : Option String
  thumbnailUrl : Option String
  duration : Nat
  videoStreams : List PipedStream
deriving DecidableEq, Repr

/-- An HTTP response from a Piped instance, as observed by
`_try_piped_instance`: status code, the `requests` redirect flag, and the
parsed JSON body (`none` when the body is not JSON). -/
structure PipedHTTPResponse where
  status : Nat
  isRedirect : Bool
  body : Option PipedData
deriving DecidableEq, Repr

/-- Python truthiness of an optional string (`if data.get(k):`). -/
def strTruthy : Option String → Bool
  | none => false
  | some s => s != ""

/-- The success payload of `_try_piped_instance`
(`server.py` lines 276-283). -/
structure PipedResult where
  title : String
  thumbnail : Option String
  duration : Nat
  formats : List Fmt
  videoId : String
  piped_instance : String
deriving DecidableEq, Repr

/-- `_try_piped_instance` (`server.py` lines 241-283) as a function of the
received response: reject redirects, require a JSON body (with
`raise_for_status` semantics on error statuses), reject payloads with an
`error` field, an error status, or a missing title; otherwise parse the
streams and keep the top 10 formats. -/
def tryPipedInstance (instanceUrl videoId : String) (resp : PipedHTTPResponse) :
    Except String PipedResult :=
  if resp.isRedirect || resp.status == 301 || resp.status == 302 ||
      resp.status == 307 || resp.status == 308 then
    Except.error ("Redirected (HTTP " ++ toString resp.status ++ ")")
  else
    match resp.body with
    | none =>
      if 400 ≤ resp.status then
        Except.error ("HTTP error " ++ toString resp.status)
      else
        Except.error ("Non-JSON response (HTTP " ++ toString resp.status ++ ")")
    | some data =>
      if strTruthy data.error then
        Except.error ("API error: " ++
          (match data.message with
           | some m => m
           | none => data.error.getD "").take 150)
      else if 400 ≤ resp.status then
        Except.error ("HTTP " ++ toString resp.status)
      else if !(strTruthy data.title) then
        Except.error "Empty response (no title)"
      else
        Except.ok
          { title := data.title.getD "YouTube Video"
            thumbnail := data.thumbnailUrl
            duration := data.duration
            formats := (parse_piped_streams data.videoStreams).take 10
            videoId := videoId
            piped_instance := instanceUrl }

/-! ### Family-B pool loop (`get_video_info_piped`,
`server.py` lines 290-325) -/

/-- The aggregate failure message
`f"All Piped instances failed (tried {tried}). Last error: {last_error}"`
(`server.py` lines 323-325); Python renders an unset `last_error` as
`None`. -/
def pipedAggMsg (tried : Nat) (last : Option String) : String :=
  "All Piped instances failed (tried " ++ toString tried ++
    "). Last error: " ++ (match last with | some s => s | none => "None")

/-- The `for instance_url in instances:` loop of `get_video_info_piped`
(`server.py` lines 303-325), with explicit `tried` counter and
`last_error` state.  Stops before an attempt once `tried` reaches the
maximum; any attempt failure records the message and advances.  Returns
the outcome together with the number of instances contacted. -/
def pipedPoolGo (attempt : String → Except String PipedResult)
    (maxAttempts : Nat) :
    List String → Nat → Option String → Except String PipedResult × Nat
  | [], tried, last => (Except.error (pipedAggMsg tried last), tried)
  | i :: is, tried, last =>
    if maxAttempts ≤ tried then (Except.error (pipedAggMsg tried last), tried)
    else
      match attempt i with
      | Except.ok r => (Except.ok r, tried + 1)
      | Except.error e => pipedPoolGo attempt maxAttempts is (tried + 1) (some e)

/-- `get_video_info_piped` (`server.py` lines 290-325): the self-hosted
override queries exactly that instance; otherwise the shuffled public
pool is walked by `pipedPoolGo`.  `net` models the network (the response
each instance would give), and `instances` stands for the pool in its
post-shuffle order, so quantifying over `instances` covers every shuffle
outcome.  The second component counts instances contacted. -/
def get_video_info_piped (selfHostedUrl : String)
    (net : String → PipedHTTPResponse) (videoId : String)
    (instances : List String) (maxAttempts : Nat) :
    Except String PipedResult × Nat :=
  if selfHostedUrl ≠ "" then
    (tryPipedInstance selfHostedUrl videoId (net selfHostedUrl), 1)
  else
    pipedPoolGo (fun i => tryPipedInstance i videoId (net i)) maxAttempts
      instances 0 none

/-! ### Stream selector (`upload_to_s3`, `server.py` lines 488-504) -/

/-- The selection predicate `if fmt_height and fmt_height <= target_height`
(`server.py` line 497). -/
def selPred (target : Nat) (f : Fmt) : Bool :=
  decide (f.height ≠ 0) && decide (f.height ≤ target)

/-- Format selection of the S3 upload path (`server.py` lines 488-504):
for a non-`"best"`, non-empty quality hint, parse a trailing target height
and take the first candidate with non-zero height at most the target;
otherwise (or when nothing matches) fall back to the first candidate;
fail when the list is empty. -/
def selectFormat (quality : String) (formats : List Fmt) : Except String Fmt :=
  let sel : Option Fmt :=
    if quality = "" ∨ quality = "best" then none
    else
      let target := (parseTrailingTarget quality.toList).getD 0
      formats.find? (selPred target)
  match sel with
  | some f => Except.ok f
  | none =>
    match formats with
    | f :: _ => Except.ok f
    | [] => Except.error "No suitable format found"

/-! ### yt-dlp format filter (`get_video`, `server.py` lines 402-422) -/

/-- A raw yt-dlp format dict; `none` models an absent key. -/
structure YtdlpRawFmt where
  url : Option String
  vcodec : Option String
  ext : Option String
  height : Option Nat
  width : Option Nat
  resolution : Option String
  format_id : String
deriving DecidableEq, Repr

/-- An output entry of the yt-dlp path (`server.py` lines 415-422);
unlike the other adapters these dicts carry no height. -/
structure YtEntry where
  quality : String
  url : String
  itag : String
  ext : String
deriving DecidableEq, Repr

/-- The quality label (`server.py` lines 411-414):
`fmt.get("resolution", fmt.get("height", "Unknown"))`, overridden by
`f"{width}x{height}"` when a truthy height is present. -/
def ytQuality (f : YtdlpRawFmt) : String :=
  let q0 : String :=
    match f.resolution with
    | some r => r
    | none =>
      match f.height with
      | some h => toString h
      | none => "Unknown"
  match f.height with
  | some h =>
    if h ≠ 0 then
      (match f.width with | some w => toString w | none => "") ++ "x" ++ toString h
    else q0
  | none => q0

/-- Entry construction (`server.py` lines 415-422). -/
def mkYtEntry (f : YtdlpRawFmt) : YtEntry :=
  { quality := ytQuality f
    url := f.url.getD ""
    itag := f.format_id
    ext := f.ext.getD "mp4" }

/-- The format filter of the yt-dlp path (`server.py` lines 402-422),
with the code's nesting: a truthy URL and a vcodec different from the
literal `"none"` (absent vcodec defaults to `"none"`), then extension
exactly `"mp4"`. -/
def ytdlpFilter (l : List YtdlpRawFmt) : List YtEntry :=
  l.filterMap (fun f =>
    if (match f.url with | some s => s != "" | none => false) &&
        (f.vcodec.getD "none" != "none") then
      if f.ext.getD "" == "mp4" then some (mkYtEntry f) else none
    else none)

/-- The spec's inclusion condition, written from its words: a directly
fetchable URL, a NON-EMPTY video codec, and the preferred container
extension.  (Compared against `ytdlpFilter`, which implements
`vcodec != "none"` instead of non-emptiness.) -/
def ytdlpClaimCond (f : YtdlpRawFmt) : Bool :=
  (match f.url with | some s => s != "" | none => false) &&
    (match f.vcodec with | some v => v != "" | none => false) &&
    (f.ext.getD "" == "mp4")

/-- The amended inclusion condition, written flat: a truthy URL, a video
codec (defaulting to `"none"` when absent) different from `"none"`, and
extension `"mp4"`. -/
def ytdlpAmendedCond (f : YtdlpRawFmt) : Bool :=
  (match f.url with | some s => s != "" | none => false) &&
    (f.vcodec.getD "none" != "none") &&
    (f.ext.getD "" == "mp4")

/-! ### Temp-file lifecycle of the S3 upload handler (`upload_to_s3`,
`server.py` lines 475-593) -/

/-- Outcome of the fetch/download stage (`server.py` lines 476-556): it
can fail before the temporary file is created (ID extraction, backend
info fetch, format selection — lines 477-504) or after `open(temp, "wb")`
has created it (the download itself — lines 514-521, 555-556). -/
inductive FetchOutcome where
  | success
  | failBeforeCreate (msg : String)
  | failAfterCreate (msg : String)
deriving DecidableEq, Repr

/-- Outcome of the `put_object` call (`server.py` lines 562-569). -/
inductive UploadOutcome where
  | success
  | fail (msg : String)
deriving DecidableEq, Repr

/-- The observable end state of one `upload_to_s3` invocation: the JSON
response (success URL or error message) and whether the temporary local
file still exists afterwards. -/
structure S3State where
  response : Except String String
  tempExists : Bool
deriving Repr

/-- `upload_to_s3` (`server.py` lines 475-593) as a function of its two
effectful stages.  The upload stage's `try` removes the file on success
(line 570) and, when it exists, on failure (lines 572-573), rethrowing a
tagged error (line 575); the outer `except` (lines 591-593) only returns
the error — a fetch-stage failure after file creation performs no
removal. -/
def upload_to_s3 (s3url : String) :
    FetchOutcome → UploadOutcome → S3State
  | FetchOutcome.failBeforeCreate m, _ => ⟨Except.error m, false⟩
  | FetchOutcome.failAfterCreate m, _ => ⟨Except.error m, true⟩
  | FetchOutcome.success, UploadOutcome.success => ⟨Except.ok s3url, false⟩
  | FetchOutcome.success, UploadOutcome.fail m =>
    ⟨Except.error ("Failed to upload to S3: " ++ m), false⟩

/-! ### The `/api/video` handler (`get_video`, `server.py` lines 356-447) -/

/-- The top-level yt-dlp `extract_info` payload, with the fields the
handler reads (`server.py` lines 399-441). -/
structure YtInfo where
  title : Option String
  thumbnail : Option String
  duration : Option Nat
  url : Option String
  formats : Option (List YtdlpRawFmt)
deriving DecidableEq, Repr

/-- The yt-dlp branch's JSON result (`server.py` lines 435-441). -/
structure YtdlpResponse where
  title : String
  formats : List YtEntry
  thumbnail : Option String
  duration : Option Nat
deriving DecidableEq, Repr

/-- The yt-dlp branch (`server.py` lines 402-441): filter the raw
formats, fall back to a single `"best"` entry when the filter is empty
and a top-level URL exists, truncate to 10. -/
def ytdlpResult (info : YtInfo) : YtdlpResponse :=
  let fmts0 :=
    match info.formats with
    | some l => ytdlpFilter l
    | none => []
  let fmts1 :=
    if fmts0.isEmpty ∧ strTruthy info.url then
      [{ quality := "best", url := info.url.getD "", itag := "best", ext := "mp4" }]
    else fmts0
  { title := info.title.getD "YouTube Video"
    formats := fmts1.take 10
    thumbnail := info.thumbnail
    duration := info.duration }

/-- The distinct JSON responses `get_video` can produce, each tagged by
the `jsonify` call that builds it (`server.py` lines 362-363, 374-388,
435-447). -/
inductive GetVideoResponse where
  | badRequest (msg : String)
  | okInvidious (info : PipedResult)
  | errInvidious (msg : String)
  | okPiped (info : PipedResult)
  | errPiped (msg : String)
  | okYtdlp (res : YtdlpResponse)
  | errYtdlp (msg : String)
deriving DecidableEq, Repr

/-- The `"backend"` field attached to each response shape
(`server.py` lines 377, 380, 385, 388, 440; the yt-dlp error response at
line 447 carries no backend tag). -/
def backendTag : GetVideoResponse → Option String
  | GetVideoResponse.badRequest _ => none
  | GetVideoResponse.okInvidious _ => some "invidious"
  | GetVideoResponse.errInvidious _ => some "invidious"
  | GetVideoResponse.okPiped _ => some "piped"
  | GetVideoResponse.errPiped _ => some "piped"
  | GetVideoResponse.okYtdlp _ => some "yt-dlp"
  | GetVideoResponse.errYtdlp _ => none

/-- `get_video` (`server.py` lines 356-447).  `urlParam`/`backendParam`
model the query parameters (`none` = absent), `inv`/`piped` the two
remote adapters' outcomes on a video ID, and `yt` the yt-dlp
`extract_info` outcome on the raw URL.  A backend of `"invidious"` or
`"piped"` is honoured only when a video ID can be extracted; otherwise
control falls through to the yt-dlp branch (lines 374, 382, 390). -/
def get_video (urlParam backendParam : Option String) (defaultBackend : String)
    (inv : String → Except String PipedResult)
    (piped : String → Except String PipedResult)
    (yt : String → Except String YtInfo) : GetVideoResponse :=
  match urlParam with
  | none => GetVideoResponse.badRequest "No URL provided"
  | some u =>
    if u = "" then GetVideoResponse.badRequest "No URL provided"
    else
      let backend := match backendParam with
        | some b => b
        | none => defaultBackend
      let ytBranch : GetVideoResponse :=
        match yt u with
        | Except.ok info => GetVideoResponse.okYtdlp (ytdlpResult info)
        | Except.error e => GetVideoResponse.errYtdlp e
      match extract_video_id u with
      | some vid =>
        if backend = "invidious" then
          match inv vid with
          | Except.ok i => GetVideoResponse.okInvidious i
          | Except.error e => GetVideoResponse.errInvidious e
        else if backend = "piped" then
          match piped vid with
          | Except.ok i => GetVideoResponse.okPiped i
          | Except.error e => GetVideoResponse.errPiped e
        else ytBranch
      | none => ytBranch

/-! ## Helper lemmas -/

/-- Running the dedup loop again over its own output changes nothing:
every kept entry's height was added to `seen_heights`, so a second pass
keeps exactly the same entries. -/
theorem dedupByHeightAux_idem (l : List Fmt) :
    ∀ seen : List Nat,
      dedupByHeightAux seen (dedupByHeightAux seen l) = dedupByHeightAux seen l := by
  induction l with
  | nil => intro seen; rfl
  | cons f fs ih =>
    intro seen
    by_cases h : f.height ∈ seen
    · simp [dedupByHeightAux, h, ih seen]
    · simp [dedupByHeightAux, h, ih (f.height :: seen)]

/-- A sample candidate carrying only a height (labels irrelevant). -/
def sampleFmt (h : Nat) : Fmt := ⟨toString h ++ "p", "", "", "mp4", h⟩

/-- The trailing-target parser yields nothing on the empty hint. -/
theorem parseTrailingTarget_nil : parseTrailingTarget ([] : List Char) = none := rfl

/-- The selection predicate is unsatisfiable at target height 0. -/
theorem selPred_zero (f : Fmt) : selPred 0 f = false := by
  simp [selPred]

/-! ## Claims -/

/-- C8: Deduplication-by-height is idempotent — applying `dedupByHeight`
(the `seen_heights` loop of `server.py` lines 164-171 / 228-235) to its
own output yields the same sequence as applying it once. -/
theorem dedup_by_height_idempotent (l : List Fmt) :
    dedupByHeight (dedupByHeight l) = dedupByHeight l :=
  dedupByHeightAux_idem l []

/-- C2: the stream selector of the S3 upload path.  For a non-`"best"`
hint whose trailing integer parses to `t`, it returns the first candidate
with non-zero height at most `t` (the first `find?` hit); when the hint
is `"best"` or unparseable, or when no candidate satisfies the
constraint, it returns the head of the list; on an empty list it fails
with the no-suitable-format error.  Hint `"1280x720"` over heights
`[1080, 720, 480]` selects the height-720 candidate. -/
theorem stream_selector_spec (q : String) (fs : List Fmt) (hfs : fs ≠ []) :
    (∀ t f, q ≠ "best" → parseTrailingTarget q.toList = some t →
      fs.find? (selPred t) = some f → selectFormat q fs = Except.ok f) ∧
    (∀ t, q ≠ "best" → parseTrailingTarget q.toList = some t →
      fs.find? (selPred t) = none → selectFormat q fs = Except.ok (fs.head hfs)) ∧
    ((q = "best" ∨ parseTrailingTarget q.toList = none) →
      selectFormat q fs = Except.ok (fs.head hfs)) ∧
    (selectFormat q [] = Except.error "No suitable format found") ∧
    (selectFormat "1280x720" [sampleFmt 1080, sampleFmt 720, sampleFmt 480] =
      Except.ok (sampleFmt 720)) := by
  have hq_of_parse : ∀ t : Nat, parseTrailingTarget q.toList = some t → q ≠ "" := by
    intro t hp h
    subst h
    rw [show ("" : String).toList = [] from rfl, parseTrailingTarget_nil] at hp
    exact Option.noConfusion hp
  refine ⟨?_, ?_, ?_, ?_, ?_⟩
  · intro t f hb hp hf
    have hq := hq_of_parse t hp
    simp only [selectFormat]
    rw [if_neg (by push_neg; exact ⟨hq, hb⟩), hp]
    simp [hf]
  · intro t hb hp hf
    have hq := hq_of_parse t hp
    simp only [selectFormat]
    rw [if_neg (by push_neg; exact ⟨hq, hb⟩), hp]
    cases fs with
    | nil => exact absurd rfl hfs
    | cons f fs0 => simp [hf]
  · intro h
    rcases h with h | h
    · subst h
      cases fs with
      | nil => exact absurd rfl hfs
      | cons f fs0 => simp [selectFormat]
    · by_cases hq : q = "" ∨ q = "best"
      · cases fs with
        | nil => exact absurd rfl hfs
        | cons f fs0 => simp [selectFormat, hq]
      · have hfind : fs.find? (selPred 0) = none :=
          List.find?_eq_none.mpr (fun f _ => by simp [selPred_zero])
        cases fs with
        | nil => exact absurd rfl hfs
        | cons f fs0 =>
          simp only [selectFormat]
          rw [if_neg hq, h]
          simp only [Option.getD_none]
          rw [hfind]
          simp
  · by_cases hq : q = "" ∨ q = "best" <;> simp [selectFormat, hq]
  · rfl

/-- C2 witness: the hint `"1280x720"` parses to target 720 and selects
the first (and only) candidate of height ≤ 720, namely the 720 one. -/
theorem stream_selector_spec_witness :
    selectFormat "1280x720" [sampleFmt 1080, sampleFmt 720, sampleFmt 480] =
      Except.ok (sampleFmt 720) :=
  (stream_selector_spec "1280x720" [sampleFmt 1080, sampleFmt 720, sampleFmt 480]
      (by simp)).1 720 (sampleFmt 720) (by decide) (by decide) (by decide)

/-- C7 counterexample: a fetch-stage failure occurring after the
temporary file has been created (e.g. `urllib.request.urlopen` failing
inside the `with open(temp_filename, "wb")` block, `server.py` lines
514-521) propagates to the outer `except` (lines 591-593), which returns
the error without removing the file — so the temp file is NOT removed on
every failure path. -/
theorem upload_temp_file_counterexample :
    (upload_to_s3 "https://bucket.s3.amazonaws.com/key"
        (FetchOutcome.failAfterCreate "urlopen timed out")
        UploadOutcome.success).tempExists = true ∧
    (upload_to_s3 "https://bucket.s3.amazonaws.com/key"
        (FetchOutcome.failAfterCreate "urlopen timed out")
        UploadOutcome.success).response = Except.error "urlopen timed out" :=
  ⟨rfl, rfl⟩

/-- C7 (amended): the temporary file is removed on the success path and
on every upload-stage failure, and no file is left by fetch-stage
failures that occur before the file is created; only a fetch-stage
failure after creation leaves the file behind. -/
theorem upload_temp_file_cleanup (s3url m : String) (u : UploadOutcome) :
    (upload_to_s3 s3url FetchOutcome.success u).tempExists = false ∧
    (upload_to_s3 s3url (FetchOutcome.failBeforeCreate m) u).tempExists = false := by
  cases u <;> exact ⟨rfl, rfl⟩

/-- A yt-dlp format with a URL, an EMPTY (but present) vcodec, and mp4
extension. -/
def emptyVcodecFmt : YtdlpRawFmt :=
  ⟨some "https://cdn/video.mp4", some "", some "mp4", none, none, none, "22"⟩

/-- C9 counterexample: the filter admits an entry whose video codec is
the empty string, because the code tests `vcodec != "none"`
(`server.py` line 408) rather than non-emptiness — so the output is not
"exactly the entries with a non-empty video codec". -/
theorem ytdlp_filter_counterexample :
    ytdlpFilter [emptyVcodecFmt] = [mkYtEntry emptyVcodecFmt] ∧
    ytdlpClaimCond emptyVcodecFmt = false :=
  ⟨rfl, rfl⟩

/-- C9 (amended): the yt-dlp filter's output is exactly the entries that
(a) expose a truthy URL, (b) carry a video codec different from the
literal `"none"` (an absent codec defaults to `"none"`), and (c) use the
mp4 container extension. -/
theorem ytdlp_filter_exact (l : List YtdlpRawFmt) :
    ytdlpFilter l = (l.filter ytdlpAmendedCond).map mkYtEntry ∧
    ∀ e, e ∈ ytdlpFilter l ↔
      ∃ f, f ∈ l ∧ ytdlpAmendedCond f = true ∧ e = mkYtEntry f := by
  have hfun : ∀ f : YtdlpRawFmt,
      (if (match f.url with | some s => s != "" | none => false) &&
          (f.vcodec.getD "none" != "none") then
        if f.ext.getD "" == "mp4" then some (mkYtEntry f) else none
      else none) =
      if ytdlpAmendedCond f then some (mkYtEntry f) else none := by
    intro f
    cases h1 : (match f.url with | some s => s != "" | none => false) <;>
      cases h2 : (f.vcodec.getD "none" != "none") <;>
        cases h3 : (f.ext.getD "" == "mp4") <;>
          simp [ytdlpAmendedCond, h1, h2, h3]
  have hflt : ∀ (m : List YtdlpRawFmt),
      m.filterMap (fun f => if ytdlpAmendedCond f then some (mkYtEntry f) else none) =
        (m.filter ytdlpAmendedCond).map mkYtEntry := by
    intro m
    induction m with
    | nil => rfl
    | cons f fs ih =>
      rw [List.filterMap_cons, List.filter_cons]
      cases h : ytdlpAmendedCond f <;> simp [h, ih]
  have heq : ytdlpFilter l = (l.filter ytdlpAmendedCond).map mkYtEntry := by
    rw [ytdlpFilter, List.filterMap_congr (fun f _ => hfun f), hflt]
  refine ⟨heq, ?_⟩
  intro e
  rw [heq]
  simp only [List.mem_map, List.mem_filter]
  constructor
  · rintro ⟨f, ⟨hf, hc⟩, rfl⟩
    exact ⟨f, hf, hc, rfl⟩
  · rintro ⟨f, hf, hc, rfl⟩
    exact ⟨f, ⟨hf, hc⟩, rfl⟩

/-- A sample yt-dlp extraction payload. -/
def sampleYtInfo : YtInfo :=
  ⟨some "Title", none, some 10, some "https://cdn/video.mp4", some []⟩

/-- C10: a `GET /api/video` request whose backend is `"invidious"` or
`"piped"` but whose URL yields no extractable video ID is not answered
with an error for that backend: the handler silently falls through to the
yt-dlp branch (`server.py` lines 374, 382, 390-443) and the response is
tagged with backend `"yt-dlp"`. -/
theorem get_video_fallthrough (u b defaultBackend : String)
    (inv piped : String → Except String PipedResult)
    (yt : String → Except String YtInfo) (info : YtInfo)
    (hu : u ≠ "") (hvid : extract_video_id u = none)
    (_hb : b = "invidious" ∨ b = "piped") (hyt : yt u = Except.ok info) :
    get_video (some u) (some b) defaultBackend inv piped yt =
      GetVideoResponse.okYtdlp (ytdlpResult info) ∧
    backendTag (get_video (some u) (some b) defaultBackend inv piped yt) =
      some "yt-dlp" := by
  have h1 : get_video (some u) (some b) defaultBackend inv piped yt =
      GetVideoResponse.okYtdlp (ytdlpResult info) := by
    simp [get_video, hu, hvid, hyt]
  exact ⟨h1, by rw [h1]; rfl⟩

/-- C10 witness: backend `"piped"` with a URL that holds no video ID. -/
theorem get_video_fallthrough_witness :
    get_video (some "https://example.com/") (some "piped") "yt-dlp"
        (fun _ => Except.error "inv down") (fun _ => Except.error "piped down")
        (fun _ => Except.ok sampleYtInfo) =
      GetVideoResponse.okYtdlp (ytdlpResult sampleYtInfo) ∧
    backendTag (get_video (some "https://example.com/") (some "piped") "yt-dlp"
        (fun _ => Except.error "inv down") (fun _ => Except.error "piped down")
        (fun _ => Except.ok sampleYtInfo)) = some "yt-dlp" :=
  get_video_fallthrough "https://example.com/" "piped" "yt-dlp"
    (fun _ => Except.error "inv down") (fun _ => Except.error "piped down")
    (fun _ => Except.ok sampleYtInfo) sampleYtInfo
    (by decide) (by rfl) (Or.inr rfl) rfl

/-! ### Pool-loop lemmas for C1/C3 -/

/-- The loop never contacts more instances than the attempt cap. -/
theorem pipedPoolGo_attempts_le (attempt : String → Except String PipedResult)
    (M : Nat) :
    ∀ (l : List String) (tried : Nat) (last : Option String), tried ≤ M →
      (pipedPoolGo attempt M l tried last).2 ≤ M := by
  intro l
  induction l with
  | nil => intro tried last h; simpa [pipedPoolGo] using h
  | cons i is ih =>
    intro tried last h
    by_cases hM : M ≤ tried
    · simpa [pipedPoolGo, hM] using h
    · cases ha : attempt i with
      | ok r => simp [pipedPoolGo, hM, ha]; omega
      | error e =>
        simp only [pipedPoolGo, if_neg hM, ha]
        exact ih (tried + 1) (some e) (by omega)

/-- Once the cap is reached the loop stops with the aggregate error. -/
theorem pipedPoolGo_stop (attempt : String → Except String PipedResult)
    (M : Nat) (l : List String) (tried : Nat) (last : Option String)
    (h : M ≤ tried) :
    pipedPoolGo attempt M l tried last =
      (Except.error (pipedAggMsg tried last), tried) := by
  cases l <;> simp [pipedPoolGo, h]

/-- When exactly `n + 1` attempts remain before the cap, the next `n + 1`
list entries all fail, and the `n`-th entry (the last one the loop will
contact) fails with `eLast`, the loop runs the counter up to the cap and
returns the aggregate error built from the cap and `eLast`.  Entries
beyond position `n` are never consulted. -/
theorem pipedPoolGo_prefix_fail (attempt : String → Except String PipedResult)
    (M : Nat) :
    ∀ (n : Nat) (l : List String) (tried : Nat) (last : Option String),
      M = tried + n + 1 → n + 1 ≤ l.length →
      (∀ i ∈ l.take (n + 1), ∃ e, attempt i = Except.error e) →
      ∀ (eLast : String) (h : n < l.length),
        attempt (l.get ⟨n, h⟩) = Except.error eLast →
        pipedPoolGo attempt M l tried last =
          (Except.error (pipedAggMsg M (some eLast)), M) := by
  intro n
  induction n with
  | zero =>
    intro l tried last hMeq hlen _ eLast h hlast
    cases l with
    | nil => simp at hlen
    | cons i is =>
      have hi : attempt i = Except.error eLast := hlast
      have hlt : tried < M := by omega
      have hstep : pipedPoolGo attempt M (i :: is) tried last =
          pipedPoolGo attempt M is (tried + 1) (some eLast) := by
        simp [pipedPoolGo, Nat.not_le.mpr hlt, hi]
      rw [hstep,
        pipedPoolGo_stop attempt M is (tried + 1) (some eLast) (by omega),
        (by omega : tried + 1 = M)]
  | succ n ih =>
    intro l tried last hMeq hlen hfail eLast h hlast
    cases l with
    | nil => simp at hlen
    | cons i is =>
      obtain ⟨e, he⟩ := hfail i
        (by rw [List.take_succ_cons]; exact List.mem_cons_self _ _)
      have hlt : tried < M := by omega
      have hstep : pipedPoolGo attempt M (i :: is) tried last =
          pipedPoolGo attempt M is (tried + 1) (some e) := by
        simp [pipedPoolGo, Nat.not_le.mpr hlt, he]
      rw [hstep]
      refine ih is (tried + 1) (some e) (by omega)
        (by simp only [List.length_cons] at hlen; omega) ?_ eLast
        (by simp only [List.length_cons] at h; omega) ?_
      · intro j hj
        exact hfail j (by rw [List.take_succ_cons]; exact List.mem_cons_of_mem _ hj)
      · exact hlast

/-- C1: in public-pool mode with `M` max attempts over `N > M` shuffled
instances, `get_video_info_piped` contacts at most `M` instances; and
when every ATTEMPTED instance — the first `M` of the shuffled order —
fails, it returns the aggregate error message built from the number of
instances tried (`M`) and the error message of the last attempted
instance (position `M - 1`), regardless of what the never-contacted
remaining instances would have answered. -/
theorem piped_pool_bounded_attempts (net : String → PipedHTTPResponse)
    (videoId : String) (instances : List String) (M : Nat)
    (hM : M < instances.length) (hM0 : 0 < M) :
    (get_video_info_piped "" net videoId instances M).2 ≤ M ∧
    (∀ eLast : String,
      (∀ i ∈ instances.take M,
        ∃ e, tryPipedInstance i videoId (net i) = Except.error e) →
      tryPipedInstance (instances.get ⟨M - 1, by omega⟩) videoId
          (net (instances.get ⟨M - 1, by omega⟩)) = Except.error eLast →
      get_video_info_piped "" net videoId instances M =
        (Except.error (pipedAggMsg M (some eLast)), M)) := by
  constructor
  · simp only [get_video_info_piped, ne_eq, not_true_eq_false, if_false]
    exact pipedPoolGo_attempts_le _ M instances 0 none (Nat.zero_le M)
  · intro eLast hfail hlast
    simp only [get_video_info_piped, ne_eq, not_true_eq_false, if_false]
    refine pipedPoolGo_prefix_fail
      (fun i => tryPipedInstance i videoId (net i)) M (M - 1) instances 0 none
      (by omega) (by omega) ?_ eLast (by omega) ?_
    · intro i hi
      exact hfail i (by rwa [(by omega : M - 1 + 1 = M)] at hi)
    · exact hlast

/-- C1 witness: three instances, cap 2, every instance answering a
non-JSON 500 — two are contacted and the aggregate error reports 2 tries
and the HTTP 500 error of the second (last attempted) instance. -/
theorem piped_pool_bounded_attempts_witness :
    (get_video_info_piped "" (fun _ => ⟨500, false, none⟩) "v" ["a", "b", "c"] 2).2 ≤ 2 ∧
    get_video_info_piped "" (fun _ => ⟨500, false, none⟩) "v" ["a", "b", "c"] 2 =
      (Except.error (pipedAggMsg 2 (some "HTTP error 500")), 2) := by
  have h := piped_pool_bounded_attempts (fun _ => ⟨500, false, none⟩) "v"
    ["a", "b", "c"] 2 (by simp) (by omega)
  exact ⟨h.1, h.2 "HTTP error 500" (fun i _ => ⟨_, rfl⟩) rfl⟩

/-- C3: a response with a redirect status (301, 302, 307 or 308) makes
`_try_piped_instance` fail with the redirect error (it is never treated
as success), and inside the pool loop such a failed attempt advances to
the next candidate endpoint, recording the redirect error as the last
error. -/
theorem piped_redirect_never_success (iUrl vid : String)
    (resp : PipedHTTPResponse)
    (hs : resp.status = 301 ∨ resp.status = 302 ∨ resp.status = 307 ∨
      resp.status = 308) :
    tryPipedInstance iUrl vid resp =
      Except.error ("Redirected (HTTP " ++ toString resp.status ++ ")") ∧
    ∀ (net : String → PipedHTTPResponse) (rest : List String)
      (tried M : Nat) (last : Option String),
      net iUrl = resp → tried < M →
      pipedPoolGo (fun i => tryPipedInstance i vid (net i)) M (iUrl :: rest)
          tried last =
        pipedPoolGo (fun i => tryPipedInstance i vid (net i)) M rest (tried + 1)
          (some ("Redirected (HTTP " ++ toString resp.status ++ ")")) := by
  have herr : tryPipedInstance iUrl vid resp =
      Except.error ("Redirected (HTTP " ++ toString resp.status ++ ")") := by
    unfold tryPipedInstance
    rcases hs with h | h | h | h <;> simp [h]
  refine ⟨herr, ?_⟩
  intro net rest tried M last hnet hlt
  simp only [pipedPoolGo, if_neg (Nat.not_le.mpr hlt), hnet, herr]

/-- A redirect response carrying an otherwise healthy JSON payload. -/
def redirectResp : PipedHTTPResponse :=
  ⟨307, true, some ⟨none, none, some "Title", none, 10, []⟩⟩

/-- C3 witness: a 307 response with a well-formed body is still rejected,
and the loop moves on to the next instance. -/
theorem piped_redirect_never_success_witness :
    tryPipedInstance "https://pipedapi.example" "v" redirectResp =
      Except.error ("Redirected (HTTP " ++ toString redirectResp.status ++ ")") ∧
    pipedPoolGo
        (fun i => tryPipedInstance i "v"
          ((fun _ => redirectResp) i)) 8
        ("https://pipedapi.example" :: ["https://other.example"]) 0 none =
      pipedPoolGo
        (fun i => tryPipedInstance i "v"
          ((fun _ => redirectResp) i)) 8
        ["https://other.example"] (0 + 1)
        (some ("Redirected (HTTP " ++ toString redirectResp.status ++ ")")) := by
  have h := piped_redirect_never_success "https://pipedapi.example" "v"
    redirectResp (Or.inr (Or.inr (Or.inl rfl)))
  exact ⟨h.1, h.2 (fun _ => redirectResp) ["https://other.example"] 0 8 none rfl
    (by omega)⟩

/-! ### Sortedness and deduplication lemmas for C4/C5 -/

/-- Insertion produces a permutation of consing. -/
theorem insertByHeightDesc_perm (f : Fmt) (l : List Fmt) :
    (insertByHeightDesc f l).Perm (f :: l) := by
  induction l with
  | nil => exact List.Perm.refl _
  | cons g gs ih =>
    by_cases h : g.height ≤ f.height
    · rw [insertByHeightDesc, if_pos h]
    · rw [insertByHeightDesc, if_neg h]
      exact (ih.cons g).trans (List.Perm.swap f g gs)

/-- The sort is a permutation of its input. -/
theorem sortByHeightDesc_perm (l : List Fmt) :
    (sortByHeightDesc l).Perm l := by
  induction l with
  | nil => exact List.Perm.refl _
  | cons f fs ih => exact (insertByHeightDesc_perm f _).trans (ih.cons f)

/-- Membership in an insertion. -/
theorem mem_insertByHeightDesc {f g : Fmt} {l : List Fmt} :
    g ∈ insertByHeightDesc f l ↔ g = f ∨ g ∈ l := by
  rw [(insertByHeightDesc_perm f l).mem_iff, List.mem_cons]

/-- Insertion preserves weak descending sortedness by height. -/
theorem pairwise_insertByHeightDesc (f : Fmt) (l : List Fmt)
    (h : l.Pairwise (fun a b => b.height ≤ a.height)) :
    (insertByHeightDesc f l).Pairwise (fun a b => b.height ≤ a.height) := by
  induction l with
  | nil => simp [insertByHeightDesc]
  | cons g gs ih =>
    rw [List.pairwise_cons] at h
    obtain ⟨hg, hgs⟩ := h
    by_cases hle : g.height ≤ f.height
    · rw [insertByHeightDesc, if_pos hle, List.pairwise_cons]
      refine ⟨?_, List.pairwise_cons.mpr ⟨hg, hgs⟩⟩
      intro x hx
      rcases List.mem_cons.mp hx with rfl | hx
      · exact hle
      · exact le_trans (hg x hx) hle
    · rw [insertByHeightDesc, if_neg hle, List.pairwise_cons]
      refine ⟨?_, ih hgs⟩
      intro x hx
      rcases mem_insertByHeightDesc.mp hx with rfl | hx
      · exact Nat.le_of_lt (Nat.lt_of_not_le hle)
      · exact hg x hx

/-- The sort's output is weakly descending by height. -/
theorem pairwise_sortByHeightDesc (l : List Fmt) :
    (sortByHeightDesc l).Pairwise (fun a b => b.height ≤ a.height) := by
  induction l with
  | nil => simp [sortByHeightDesc]
  | cons f fs ih => exact pairwise_insertByHeightDesc f _ ih

/-- Every entry kept by the dedup loop comes from the input. -/
theorem dedupByHeightAux_subset :
    ∀ (l : List Fmt) (seen : List Nat) (f : Fmt),
      f ∈ dedupByHeightAux seen l → f ∈ l := by
  intro l
  induction l with
  | nil => intro seen f h; simp [dedupByHeightAux] at h
  | cons g gs ih =>
    intro seen f h
    by_cases hm : g.height ∈ seen
    · rw [dedupByHeightAux, if_pos hm] at h
      exact List.mem_cons_of_mem _ (ih seen f h)
    · rw [dedupByHeightAux, if_neg hm] at h
      rcases List.mem_cons.mp h with rfl | h
      · exact List.mem_cons_self _ _
      · exact List.mem_cons_of_mem _ (ih _ f h)

/-- The dedup loop's output has pairwise-distinct heights, none of which
occur in the incoming seen-set. -/
theorem dedupByHeightAux_nodup :
    ∀ (l : List Fmt) (seen : List Nat),
      ((dedupByHeightAux seen l).map Fmt.height).Nodup ∧
      ∀ h ∈ (dedupByHeightAux seen l).map Fmt.height, h ∉ seen := by
  intro l
  induction l with
  | nil => intro seen; simp [dedupByHeightAux]
  | cons g gs ih =>
    intro seen
    by_cases hm : g.height ∈ seen
    · rw [dedupByHeightAux, if_pos hm]
      exact ih seen
    · rw [dedupByHeightAux, if_neg hm]
      obtain ⟨h1, h2⟩ := ih (g.height :: seen)
      refine ⟨?_, ?_⟩
      · rw [List.map_cons, List.nodup_cons]
        refine ⟨?_, h1⟩
        intro hmem
        exact (h2 _ hmem) (List.mem_cons_self _ _)
      · intro h hmem
        rw [List.map_cons, List.mem_cons] at hmem
        rcases hmem with rfl | hmem
        · exact hm
        · exact fun hseen => (h2 h hmem) (List.mem_cons_of_mem _ hseen)

/-- A weakly descending list with pairwise-distinct heights is strictly
descending. -/
theorem strict_pairwise_of (l : List Fmt)
    (hsorted : l.Pairwise (fun a b => b.height ≤ a.height))
    (hnodup : (l.map Fmt.height).Nodup) :
    l.Pairwise (fun a b => b.height < a.height) := by
  have hne : l.Pairwise (fun a b => a.height ≠ b.height) :=
    List.pairwise_map.mp hnodup
  exact (hsorted.and hne).imp (fun h => lt_of_le_of_ne h.1 h.2.symm)

/-- The invariant the spec states for candidate lists: strictly
descending heights, no duplicated height, every height positive. -/
def StrictCandidates (l : List Fmt) : Prop :=
  l.Pairwise (fun a b => b.height < a.height) ∧
  (l.map Fmt.height).Nodup ∧
  ∀ f ∈ l, 0 < f.height

/-- The dedup-then-sort pipeline establishes the candidate invariant for
any all-positive input. -/
theorem dedupAndSort_strict (l : List Fmt) (hpos : ∀ f ∈ l, 0 < f.height) :
    StrictCandidates (dedupAndSort l) := by
  have hnd : ((dedupByHeight l).map Fmt.height).Nodup :=
    (dedupByHeightAux_nodup l []).1
  have hperm : (sortByHeightDesc (dedupByHeight l)).Perm (dedupByHeight l) :=
    sortByHeightDesc_perm _
  have hnd2 : ((dedupAndSort l).map Fmt.height).Nodup :=
    (hperm.map Fmt.height).nodup_iff.mpr hnd
  refine ⟨strict_pairwise_of _ (pairwise_sortByHeightDesc _) hnd2, hnd2, ?_⟩
  intro f hf
  exact hpos f (dedupByHeightAux_subset l [] f (hperm.mem_iff.mp hf))

/-- Truncation preserves the candidate invariant. -/
theorem StrictCandidates.take {l : List Fmt} (n : Nat)
    (h : StrictCandidates l) : StrictCandidates (l.take n) := by
  obtain ⟨h1, h2, h3⟩ := h
  refine ⟨List.Pairwise.sublist (List.take_sublist n l) h1,
    List.Nodup.sublist ((List.take_sublist n l).map Fmt.height) h2, ?_⟩
  intro f hf
  exact h3 f (List.take_subset n l hf)

/-- Entries built by the Invidious loop have positive height. -/
theorem mkInvidiousEntry_pos (base : String) (a : InvFmt) (f : Fmt)
    (h : mkInvidiousEntry base a = some f) : 0 < f.height := by
  unfold mkInvidiousEntry at h
  by_cases h1 : a.type.startsWith "video" ∧ a.url ≠ ""
  · rw [if_pos h1] at h
    by_cases h2 : 0 < invEffHeight a
    · rw [if_pos h2] at h
      simp only [Option.some.injEq] at h
      rw [← h]
      exact h2
    · rw [if_neg h2] at h
      exact Option.noConfusion h
  · rw [if_neg h1] at h
    exact Option.noConfusion h

/-- Entries built by the Piped stream loop have positive height. -/
theorem pipedStreamEntry_pos (s : PipedStream) (e : Fmt × Bool)
    (h : pipedStreamEntry s = some e) : 0 < e.1.height := by
  unfold pipedStreamEntry at h
  by_cases h1 : s.url ≠ ""
  · rw [if_pos h1] at h
    by_cases h2 : 0 < pipedEffHeight s
    · rw [if_pos h2] at h
      simp only [Option.some.injEq] at h
      rw [← h]
      exact h2
    · rw [if_neg h2] at h
      exact Option.noConfusion h
  · rw [if_neg h1] at h
    exact Option.noConfusion h

/-- Every combined Piped entry has positive height. -/
theorem pipedCombined_pos (streams : List PipedStream) :
    ∀ f ∈ pipedCombined streams, 0 < f.height := by
  intro f hf
  rw [pipedCombined, List.mem_filterMap] at hf
  obtain ⟨e, he, hsel⟩ := hf
  rw [List.mem_filterMap] at he
  obtain ⟨s, _, hs⟩ := he
  have := pipedStreamEntry_pos s e hs
  cases hb : e.2
  · rw [hb] at hsel
    simp only [Bool.false_eq_true, if_false, Option.some.injEq] at hsel
    rw [← hsel]
    exact this
  · rw [hb] at hsel
    simp at hsel

/-- Every video-only Piped entry has positive height. -/
theorem pipedVideoOnly_pos (streams : List PipedStream) :
    ∀ f ∈ pipedVideoOnly streams, 0 < f.height := by
  intro f hf
  rw [pipedVideoOnly, List.mem_filterMap] at hf
  obtain ⟨e, he, hsel⟩ := hf
  rw [List.mem_filterMap] at he
  obtain ⟨s, _, hs⟩ := he
  have := pipedStreamEntry_pos s e hs
  cases hb : e.2
  · rw [hb] at hsel
    simp at hsel
  · rw [hb] at hsel
    simp only [if_true, Option.some.injEq] at hsel
    rw [← hsel]
    exact this

/-- Every entry of the merged Piped list has positive height. -/
theorem pipedMerged_pos (streams : List PipedStream) :
    ∀ f ∈ pipedMerged streams, 0 < f.height := by
  intro f hf
  rw [pipedMerged, List.mem_append] at hf
  rcases hf with hf | hf
  · exact pipedCombined_pos streams f hf
  · exact pipedVideoOnly_pos streams f (List.mem_filter.mp hf).1

/-- C4: the candidate lists of both remote adapters satisfy the spec's
invariant — strictly descending heights, at most one entry per height, no
zero-height entry — both for the full parsed lists and for the truncated
lists the adapters return, the latter holding at most 10 entries
(`server.py` lines 180 and 280). -/
theorem candidate_list_invariants (base : String) (afmts : List InvFmt)
    (streams : List PipedStream) :
    StrictCandidates (invidiousCandidates base afmts) ∧
    StrictCandidates (invidiousFormats base afmts) ∧
    (invidiousFormats base afmts).length ≤ 10 ∧
    StrictCandidates (parse_piped_streams streams) ∧
    StrictCandidates ((parse_piped_streams streams).take 10) ∧
    ((parse_piped_streams streams).take 10).length ≤ 10 := by
  have hinv : StrictCandidates (invidiousCandidates base afmts) := by
    apply dedupAndSort_strict
    intro f hf
    rw [List.mem_filterMap] at hf
    obtain ⟨a, _, ha⟩ := hf
    exact mkInvidiousEntry_pos base a f ha
  have hpip : StrictCandidates (parse_piped_streams streams) :=
    dedupAndSort_strict _ (pipedMerged_pos streams)
  exact ⟨hinv, hinv.take 10, List.length_take_le 10 _,
    hpip, hpip.take 10, List.length_take_le 10 _⟩

/-- C5: the parser's merge step prefers combined (audio+video) streams:
the merged list starts with all combined streams in order; every element
is either a combined stream or a video-only stream whose height no
combined stream covers; and a video-only stream whose height is uncovered
is included (`server.py` lines 221-226). -/
theorem piped_combined_preference (streams : List PipedStream) :
    ((pipedMerged streams).take (pipedCombined streams).length =
      pipedCombined streams) ∧
    (∀ f ∈ pipedCombined streams, f ∈ pipedMerged streams) ∧
    (∀ f ∈ pipedMerged streams,
      f ∈ pipedCombined streams ∨
        (f ∈ pipedVideoOnly streams ∧
          f.height ∉ (pipedCombined streams).map Fmt.height)) ∧
    (∀ f ∈ pipedVideoOnly streams,
      f.height ∉ (pipedCombined streams).map Fmt.height →
        f ∈ pipedMerged streams) := by
  refine ⟨?_, ?_, ?_, ?_⟩
  · rw [pipedMerged]
    exact List.take_left _ _
  · intro f hf
    rw [pipedMerged]
    exact List.mem_append_left _ hf
  · intro f hf
    rw [pipedMerged, List.mem_append] at hf
    rcases hf with hf | hf
    · exact Or.inl hf
    · right
      rw [List.mem_filter] at hf
      exact ⟨hf.1, of_decide_eq_true hf.2⟩
  · intro f hf hnot
    rw [pipedMerged]
    exact List.mem_append_right _
      (List.mem_filter.mpr ⟨hf, decide_eq_true hnot⟩)

/-! ### Video-ID extraction lemmas for C6 -/

/-- The `{11}` matcher accepts a list of exactly its own length made of
ID characters. -/
theorem takeIdChars_full :
    ∀ l : List Char, (∀ c ∈ l, isIdChar c) → takeIdChars l.length l = some l := by
  intro l
  induction l with
  | nil => intro _; rfl
  | cons c cs ih =>
    intro h
    have hc : isIdChar c := h c (List.mem_cons_self _ _)
    simp [takeIdChars, hc, ih (fun x hx => h x (List.mem_cons_of_mem _ hx))]

/-- Characters of a matched literal occur in the searched list. -/
theorem dropLit_mem :
    ∀ (p l r : List Char), dropLit p l = some r → ∀ c ∈ p, c ∈ l := by
  intro p
  induction p with
  | nil => intro l r _ c hc; simp at hc
  | cons q qs ih =>
    intro l r h c hc
    cases l with
    | nil => simp [dropLit] at h
    | cons x xs =>
      rw [dropLit] at h
      by_cases he : (x == q) = true
      · rw [if_pos he] at h
        rcases List.mem_cons.mp hc with rfl | hc
        · exact List.mem_cons.mpr (Or.inl (eq_of_beq he).symm)
        · exact List.mem_cons_of_mem _ (ih xs r h c hc)
      · rw [if_neg he] at h
        exact Option.noConfusion h

/-- An alternative containing a non-ID character cannot match inside a
string of ID characters. -/
theorem tryOneAlt_none_of_id (alt l : List Char) (c0 : Char)
    (hc0 : c0 ∈ alt) (hc0id : isIdChar c0 = false)
    (hl : ∀ c ∈ l, isIdChar c) : tryOneAlt alt l = none := by
  cases hres : dropLit alt l with
  | none => simp [tryOneAlt, hres]
  | some r =>
    have : isIdChar c0 := hl c0 (dropLit_mem alt l r hres c0 hc0)
    rw [hc0id] at this
    exact Bool.noConfusion this

/-- The URL pattern never matches inside a pure ID string (all its
alternatives contain a dot). -/
theorem searchPat1_none_of_id :
    ∀ l : List Char, (∀ c ∈ l, isIdChar c) → searchPat1 l = none := by
  intro l
  induction l with
  | nil => intro _; rfl
  | cons c cs ih =>
    intro h
    have h1 : tryOneAlt watchLit (c :: cs) = none :=
      tryOneAlt_none_of_id _ _ '.' (by decide) (by decide) h
    have h2 : tryOneAlt shortLit (c :: cs) = none :=
      tryOneAlt_none_of_id _ _ '.' (by decide) (by decide) h
    have h3 : tryOneAlt embedLit (c :: cs) = none :=
      tryOneAlt_none_of_id _ _ '.' (by decide) (by decide) h
    rw [searchPat1]
    simp only [tryAltsAt, h1, h2, h3]
    exact ih (fun x hx => h x (List.mem_cons_of_mem _ hx))

/-- The full watch-URL head: `https://www.youtube.com/watch?v=`. -/
def watchHead : List Char := "https://www.youtube.com/watch?v=".toList

/-- The short-link head: `https://youtu.be/`. -/
def shortHead : List Char := "https://youtu.be/".toList

/-- The embed-URL head: `https://www.youtube.com/embed/`. -/
def embedHead : List Char := "https://www.youtube.com/embed/".toList

/-- The search finds the ID right after the watch-URL head. -/
theorem searchPat1_watchHead (s r : List Char) (h : takeIdChars 11 s = some r) :
    searchPat1 (watchHead ++ s) = some r := by
  simp [watchHead, searchPat1, tryAltsAt, tryOneAlt, dropLit, watchLit,
    shortLit, embedLit, h]

/-- The search finds the ID right after the short-link head. -/
theorem searchPat1_shortHead (s r : List Char) (h : takeIdChars 11 s = some r) :
    searchPat1 (shortHead ++ s) = some r := by
  simp [shortHead, searchPat1, tryAltsAt, tryOneAlt, dropLit, watchLit,
    shortLit, embedLit, h]

/-- The search finds the ID right after the embed-URL head. -/
theorem searchPat1_embedHead (s r : List Char) (h : takeIdChars 11 s = some r) :
    searchPat1 (embedHead ++ s) = some r := by
  simp [embedHead, searchPat1, tryAltsAt, tryOneAlt, dropLit, watchLit,
    shortLit, embedLit, h]

/-- C6: for every 11-character ID `s` over the ID alphabet, the watch,
short-link, embed and bare-ID shapes all extract the same ID `s`; the
concrete short link for `dQw4w9WgXcQ` yields that ID; and a string
matched by neither pattern yields `none` (the handler's `InvalidInput`
path). -/
theorem video_id_extraction (s : List Char) (hlen : s.length = 11)
    (hall : ∀ c ∈ s, isIdChar c) :
    extractVideoId (watchHead ++ s) = some s ∧
    extractVideoId (shortHead ++ s) = some s ∧
    extractVideoId (embedHead ++ s) = some s ∧
    extractVideoId s = some s ∧
    extract_video_id "https://youtu.be/dQw4w9WgXcQ" = some "dQw4w9WgXcQ" ∧
    (∀ t : List Char, searchPat1 t = none → isBareId t = false →
      extractVideoId t = none) := by
  have hid : takeIdChars 11 s = some s := by
    rw [← hlen]
    exact takeIdChars_full s hall
  refine ⟨?_, ?_, ?_, ?_, by decide, ?_⟩
  · rw [extractVideoId, searchPat1_watchHead s s hid]
  · rw [extractVideoId, searchPat1_shortHead s s hid]
  · rw [extractVideoId, searchPat1_embedHead s s hid]
  · rw [extractVideoId, searchPat1_none_of_id s hall]
    have hbare : isBareId s = true := by
      rw [isBareId, Bool.and_eq_true, beq_iff_eq, List.all_eq_true]
      exact ⟨hlen, hall⟩
    rw [hbare]
    simp
  · intro t h1 h2
    rw [extractVideoId, h1, h2]
    simp

/-- C6 witness: the four shapes at the concrete ID `dQw4w9WgXcQ`. -/
theorem video_id_extraction_witness :
    extractVideoId (watchHead ++ "dQw4w9WgXcQ".toList) =
      some "dQw4w9WgXcQ".toList ∧
    extractVideoId (shortHead ++ "dQw4w9WgXcQ".toList) =
      some "dQw4w9WgXcQ".toList ∧
    extractVideoId (embedHead ++ "dQw4w9WgXcQ".toList) =
      some "dQw4w9WgXcQ".toList ∧
    extractVideoId "dQw4w9WgXcQ".toList = some "dQw4w9WgXcQ".toList := by
  have h := video_id_extraction "dQw4w9WgXcQ".toList (by decide) (by decide)
  exact ⟨h.1, h.2.1, h.2.2.1, h.2.2.2.1⟩

end YtServer
